import Mathlib

/-
Shallow embedding of the per-session orchestration engine of the
voice-assistant server: the session state machine, audio buffering,
VAD event loop, response pipeline, cancellation registry and the
client connection loop of client_state.go, together with the VAD
event-channel delivery policy of the services-client file.

The concurrent Go code (the reader loop, the VAD-event goroutine and the
response-pipeline goroutine) is embedded sequentially: each handler is a
pure function on the session system state, a goroutine launch runs the
launched body at the launch point, and channel streams become lists
consumed in order.  Machine effects that the claims observe (outbound
frames, collaborator calls, state changes, cancellation firings) are
recorded in an append-only trace.
-/

/-- One frame of PCM audio as received from the transport (a Go byte slice). -/
abbrev Chunk := List Nat

/-- The session states of client_state.go (lines 34 to 42).  The Go type
    State is a string; the string carried by each constant is State.str. -/
inductive State where
  | StateIdle
  | StateDetecting
  | StateTriggered
  | StateProcessing
  | StateSpeaking
  | StateError
  | StateDisconnected
deriving DecidableEq, Repr

open State

/-- The wire string of each state constant. -/
def State.str : State → String
  | StateIdle => "IDLE"
  | StateDetecting => "LISTENING"
  | StateTriggered => "TRIGGERED"
  | StateProcessing => "PROCESSING"
  | StateSpeaking => "SPEAKING"
  | StateError => "ERROR"
  | StateDisconnected => "DISCONNECTED"

/-- An event from the VAD service: a kind string ("start", "continue",
    "end") and a diagnostic message. -/
structure VadEvent where
  type : String
  message : String
deriving DecidableEq, Repr

/-- Observable effects of a session run, recorded in arrival order.
    statusMsg, transcriptMsg, responseMsg and binaryAudio are the outbound
    frames written by sendStatus, sendTranscript, sendResponse and
    synthesizeAndSend; writeFailed records a failed conn.WriteMessage (which
    the Go senders only log); stateChange records each setState call;
    triggerCheck, transcribeCall, generateCall and synthCall record the
    collaborator invocations IsTriggered, Transcribe, GetResponse and
    Synthesize; vadForward records ProcessAudio forwarding a frame to the
    VAD service; cancelFired records firing one registered cancellation
    handle; launchPipeline records the goroutine launch of processAudio. -/
inductive Effect where
  | statusMsg (status : String) (detail : String)
  | transcriptMsg (text : String) (isFinal : Bool)
  | responseMsg (text : String)
  | binaryAudio (data : Chunk)
  | writeFailed
  | stateChange (st : State)
  | triggerCheck (arg : Option Chunk)
  | transcribeCall (chunks : List Chunk)
  | generateCall (prompt : String)
  | synthCall (text : String)
  | vadForward (chunk : Chunk)
  | cancelFired (key : String)
  | launchPipeline
deriving DecidableEq, Repr

/-- The collaborators reachable from the session, with their responses for
    one run: hasVad, hasTrigger, hasStt, hasLlm, hasTts model whether the
    corresponding App client field is non-nil; triggerResult is the value
    IsTriggered returns; transcribeResult the outcome of Transcribe;
    llmStream the outcome of GetResponse (on success, the finite fragment
    stream); ttsResult the outcome of Synthesize per sentence. -/
structure App where
  hasVad : Bool
  hasTrigger : Bool
  hasStt : Bool
  hasLlm : Bool
  hasTts : Bool
  triggerResult : Bool
  transcribeResult : Except String String
  llmStream : Except String (List String)
  ttsResult : String → Except String Chunk

/-- The fields of the Go ClientState struct that carry session state.
    cancelFuncs keeps the keys of the registered cancellation handles (the
    context.CancelFunc values themselves are abstracted: firing one is
    recorded as an Effect.cancelFired). -/
structure ClientState where
  state : State
  transcript : String
  vadActive : Bool
  triggered : Bool
  audioBuffer : List Chunk
  cancelFuncs : List String
  closed : Bool
deriving Repr

/-- The WebSocket connection: a stream of outcomes for successive
    WriteMessage calls (an exhausted list means every further write
    succeeds) and a closed flag. -/
structure Conn where
  writeResults : List Bool
  isClosed : Bool
deriving Repr

/-- Performing one WriteMessage call: consume the next write outcome. -/
def Conn.write : Conn → Conn × Bool
  | ⟨[], c⟩ => (⟨[], c⟩, true)
  | ⟨r :: rs, c⟩ => (⟨rs, c⟩, r)

/-- The whole session system: the ClientState, its connection, the recorded
    trace, and whether the App registry has removed this session. -/
structure Sys where
  cs : ClientState
  conn : Conn
  trace : List Effect
  removed : Bool
deriving Repr

/-- Record one effect at the end of the trace. -/
def Sys.emit (s : Sys) (e : Effect) : Sys :=
  { s with trace := s.trace ++ [e] }

/-- Models conn.WriteMessage as used by every sender in client_state.go:
    the write is attempted (the frame effect is recorded), one write outcome
    is consumed from the connection, and a failed write is only logged
    (recorded as Effect.writeFailed) - no sender inspects the error beyond
    logging it. -/
def writeMsg (e : Effect) (s : Sys) : Sys :=
  if (s.conn.write).2 then ({ s with conn := (s.conn.write).1 }).emit e
  else (({ s with conn := (s.conn.write).1 }).emit e).emit Effect.writeFailed

/-- sendStatus (client_state.go lines 405 to 423). -/
def sendStatus (status : State) (detail : String) (s : Sys) : Sys :=
  writeMsg (Effect.statusMsg status.str detail) s

/-- sendTranscript (client_state.go lines 425 to 443). -/
def sendTranscript (text : String) (isFinal : Bool) (s : Sys) : Sys :=
  writeMsg (Effect.transcriptMsg text isFinal) s

/-- sendResponse (client_state.go lines 445 to 462). -/
def sendResponse (text : String) (s : Sys) : Sys :=
  writeMsg (Effect.responseMsg text) s

/-- setState: write the state field (recorded as a stateChange effect). -/
def setState (st : State) (s : Sys) : Sys :=
  let s1 := s.emit (Effect.stateChange st)
  { s1 with cs := { s1.cs with state := st } }

/-- addCancelFunc: register a cancellation handle under a key (map insert;
    inserting an existing key replaces its handle, so the key set gains at
    most the new key). -/
def addCancelFunc (key : String) (s : Sys) : Sys :=
  if key ∈ s.cs.cancelFuncs then s
  else { s with cs := { s.cs with cancelFuncs := s.cs.cancelFuncs ++ [key] } }

/-- removeCancelFunc: delete exactly the given key from the registry. -/
def removeCancelFunc (key : String) (s : Sys) : Sys :=
  { s with cs :=
    { s.cs with cancelFuncs := s.cs.cancelFuncs.filter (fun k => decide (k ≠ key)) } }

/-- cancelAllOperations (client_state.go lines 506 to 516): fire every
    registered handle, then reset the registry to an empty map. -/
def cancelAllOperations (s : Sys) : Sys :=
  let s1 := s.cs.cancelFuncs.foldl (fun acc k => acc.emit (Effect.cancelFired k)) s
  { s1 with cs := { s1.cs with cancelFuncs := [] } }

/-- resetState (client_state.go lines 478 to 490). -/
def resetState (s : Sys) : Sys :=
  let s1 := setState StateIdle s
  let s2 := { s1 with cs :=
    { s1.cs with transcript := "", vadActive := false, triggered := false, audioBuffer := [] } }
  sendStatus StateIdle "Ready" s2

/-- handleAudioData (client_state.go lines 115 to 134): append a copy of the
    frame to the audio buffer only while TRIGGERED, then always forward the
    frame to the VAD collaborator when it is present. -/
def handleAudioData (app : App) (audioData : Chunk) (s : Sys) : Sys :=
  let s1 :=
    if s.cs.state = StateTriggered then
      { s with cs := { s.cs with audioBuffer := s.cs.audioBuffer ++ [audioData] } }
    else s
  if app.hasVad then s1.emit (Effect.vadForward audioData) else s1

/-- handleTextCommand (client_state.go lines 137 to 152).  The Go code
    json.Unmarshal-s the text frame into a string-to-string map and switches
    on the value at key "action"; JSON decoding is a library call, so the
    command arrives here already parsed: none models an unparseable frame
    (logged and ignored), some kvs a decoded string map (a missing "action"
    key reads as the empty string, matching Go map indexing). -/
def handleTextCommand (cmd : Option (List (String × String))) (s : Sys) : Sys :=
  match cmd with
  | none => s
  | some kvs =>
    match (kvs.lookup "action").getD "" with
    | "reset" => resetState s
    | "stop" => resetState (cancelAllOperations s)
    | _ => s

/-- A sentence-terminating character, per the check
    strings.Contains(currentSentence, ".") or "!" or "?". -/
def isSentenceEnd (c : Char) : Bool := c = '.' || c = '!' || c = '?'

/-- Position one past the last sentence terminator of the character list,
    0 when there is none: strings.LastIndexAny(s, ".!?") + 1.  (Character
    positions coincide with Go byte positions up to the last terminator
    because the terminators are one byte each and a split happens right
    after a terminator in both readings.) -/
def lastTermEnd : List Char → Nat
  | [] => 0
  | c :: cs =>
    let r := lastTermEnd cs
    if 0 < r then r + 1 else if isSentenceEnd c then 1 else 0

/-- Whether the running buffer contains a sentence terminator. -/
def containsSentenceEnd (s : String) : Bool := s.toList.any isSentenceEnd

/-- synthesizeAndSend (client_state.go lines 386 to 403): with no TTS client
    return silently; otherwise call Synthesize, and on success write the
    audio as a binary frame (an error is only logged). -/
def synthesizeAndSend (app : App) (text : String) (s : Sys) : Sys :=
  if app.hasTts then
    let s1 := s.emit (Effect.synthCall text)
    match app.ttsResult text with
    | Except.error _ => s1
    | Except.ok audioData => writeMsg (Effect.binaryAudio audioData) s1
  else s

/-- One iteration of the response-stream loop of processAudio (lines 346 to
    382) for a received fragment resp: append resp to currentSentence; if
    the buffer holds a terminator whose successor position endIdx satisfies
    0 < endIdx and endIdx < len(currentSentence), split there and synthesize
    the prefix; finally forward resp itself with sendResponse.  Returns the
    new currentSentence and system. -/
def streamStep (app : App) (resp : String) (currentSentence : String) (s : Sys) :
    String × Sys :=
  let cur := currentSentence ++ resp
  let p :=
    if containsSentenceEnd cur then
      let endIdx := lastTermEnd cur.toList
      if 0 < endIdx ∧ endIdx < cur.toList.length then
        (String.mk (cur.toList.drop endIdx),
         synthesizeAndSend app (String.mk (cur.toList.take endIdx)) s)
      else (cur, s)
    else (cur, s)
  (p.1, sendResponse resp p.2)

/-- The response-stream loop of processAudio, consuming the fragment stream
    in order; at end of stream the leftover partial sentence (if nonempty)
    is synthesized, then the session returns to IDLE with a Ready status. -/
def streamLoop (app : App) (responseStream : List String) (currentSentence : String)
    (s : Sys) : Sys :=
  match responseStream with
  | [] =>
    let s1 := if currentSentence ≠ "" then synthesizeAndSend app currentSentence s else s
    sendStatus StateIdle "Ready" (setState StateIdle s1)
  | resp :: rest =>
    let p := streamStep app resp currentSentence s
    streamLoop app rest p.1 p.2

/-- processAudio after the buffer drain (client_state.go lines 305 to 382):
    STT-unavailable and Transcribe-error paths send an ERROR status and set
    IDLE; on success the transcript is stored and sent, then the LLM paths
    mirror this; once the response stream is open the state becomes SPEAKING
    and the stream loop runs. -/
def processAudioCore (app : App) (audioBuffer : List Chunk) (s : Sys) : Sys :=
  if app.hasStt then
    let s1 := s.emit (Effect.transcribeCall audioBuffer)
    match app.transcribeResult with
    | Except.error _ =>
      setState StateIdle (sendStatus StateError "Failed to transcribe audio" s1)
    | Except.ok transcript =>
      let s2 := { s1 with cs := { s1.cs with transcript := transcript } }
      let s3 := sendTranscript transcript true s2
      if app.hasLlm then
        let s4 := s3.emit (Effect.generateCall transcript)
        match app.llmStream with
        | Except.error _ =>
          setState StateIdle (sendStatus StateError "Failed to get AI response" s4)
        | Except.ok responseStream =>
          let s5 := setState StateSpeaking s4
          let s6 := sendStatus StateSpeaking "Speaking..." s5
          streamLoop app responseStream "" s6
      else setState StateIdle (sendStatus StateError "LLM service unavailable" s3)
  else setState StateIdle (sendStatus StateError "STT service unavailable" s)

/-- processAudio (client_state.go lines 289 to 383): set PROCESSING with its
    status, register the "processing" cancellation handle, atomically drain
    the audio buffer, run the pipeline body, and (modelling the defer)
    deregister only the "processing" handle on exit. -/
def processAudio (app : App) (s : Sys) : Sys :=
  let s1 := setState StateProcessing s
  let s2 := sendStatus StateProcessing "Processing your request..." s1
  let s3 := addCancelFunc "processing" s2
  let audioBuffer := s3.cs.audioBuffer
  let s4 := { s3 with cs := { s3.cs with audioBuffer := [] } }
  removeCancelFunc "processing" (processAudioCore app audioBuffer s4)

/-- One iteration of the VAD-event goroutine of startProcessingVadEvents
    (client_state.go lines 167 to 213): handling of a single event received
    from the channel.  A "start" event sets vadActive and, only from IDLE
    and with a trigger client present, calls IsTriggered(nil); on a positive
    answer the session becomes TRIGGERED (status sent, buffer cleared).  An
    "end" event clears vadActive and, only from TRIGGERED, launches
    processAudio.  A "continue" (or unknown) event only logs. -/
def vadEventStep (app : App) (event : VadEvent) (s : Sys) : Sys :=
  if event.type = "start" then
    let s1 := { s with cs := { s.cs with vadActive := true } }
    if s1.cs.state = StateIdle then
      if app.hasTrigger then
        let s2 := s1.emit (Effect.triggerCheck none)
        if app.triggerResult then
          let s3 := { s2 with cs := { s2.cs with triggered := true } }
          let s4 := setState StateTriggered s3
          let s5 := sendStatus StateTriggered "Listening to you..." s4
          { s5 with cs := { s5.cs with audioBuffer := [] } }
        else s2
      else s1
    else s1
  else if event.type = "end" then
    let s1 := { s with cs := { s.cs with vadActive := false } }
    if s1.cs.state = StateTriggered then
      processAudio app (s1.emit Effect.launchPipeline)
    else s1
  else s

/-- The VAD-event goroutine consuming a finite event sequence in order. -/
def vadLoop (app : App) (events : List VadEvent) (s : Sys) : Sys :=
  match events with
  | [] => s
  | ev :: rest => vadLoop app rest (vadEventStep app ev s)

/-- An inbound transport frame as seen by the reader loop of handleClient:
    a binary audio frame, a parsed text frame, or a read error. -/
inductive InMsg where
  | binary (data : Chunk)
  | text (cmd : Option (List (String × String)))
  | readError
deriving Repr

/-- The reader loop of handleClient (client_state.go lines 93 to 111):
    dispatch binary frames to handleAudioData and text frames to
    handleTextCommand; a read error breaks the loop (messages after it are
    never seen).  Nothing else exits the loop. -/
def clientLoop (app : App) (msgs : List InMsg) (s : Sys) : Sys :=
  match msgs with
  | [] => s
  | InMsg.binary d :: rest => clientLoop app rest (handleAudioData app d s)
  | InMsg.text cmd :: rest => clientLoop app rest (handleTextCommand cmd s)
  | InMsg.readError :: _ => s

/-- ClientState.close (client_state.go lines 519 to 534): idempotently
    cancel all operations and close the connection. -/
def closeClient (s : Sys) : Sys :=
  if s.cs.closed then s
  else
    let s1 := cancelAllOperations s
    { s1 with conn := { s1.conn with isClosed := true }, cs := { s1.cs with closed := true } }

/-- App.removeClient: close the session and delete it from the registry. -/
def removeClient (s : Sys) : Sys :=
  { closeClient s with removed := true }

/-- handleClient (client_state.go lines 80 to 112) over one full connection
    lifetime: the initial Ready status, then the reader loop (which in Go
    exits only through a read error, so msgs is expected to end with
    InMsg.readError), then the deferred removeClient. -/
def handleClient (app : App) (msgs : List InMsg) (s : Sys) : Sys :=
  removeClient (clientLoop app msgs (sendStatus StateIdle "Ready" s))

/-- Capacity of the VAD event channel: make(chan VadEvent, 100). -/
def vadEventChanCap : Nat := 100

/-- The nonblocking channel send of receiveResponses (select with a default
    branch): if the buffered channel has room the event is appended and true
    is returned; if it is full the new event is discarded (the Go code logs)
    and false is returned - the producer is never blocked. -/
def trySendEvent (chan : List VadEvent) (ev : VadEvent) : List VadEvent × Bool :=
  if chan.length < vadEventChanCap then (chan ++ [ev], true) else (chan, false)

/-- One iteration of receiveResponses for a received VAD response: update
    the speechActive flag from the event kind, then attempt the nonblocking
    delivery of the event into the channel. -/
def receiveResponsesStep (speechActive : Bool) (chan : List VadEvent)
    (event message : String) : Bool × List VadEvent × Bool :=
  let active := if event = "start" then true else if event = "end" then false else speechActive
  (active, trySendEvent chan ⟨event, message⟩)

/-- NewClientState (client_state.go lines 65 to 74). -/
def NewClientState : ClientState :=
  { state := StateIdle, transcript := "", vadActive := false, triggered := false,
    audioBuffer := [], cancelFuncs := [], closed := false }

/-- A fresh session system over a connection with the given write outcomes. -/
def mkSys (writeResults : List Bool) : Sys :=
  { cs := NewClientState, conn := { writeResults := writeResults, isClosed := false },
    trace := [], removed := false }

/-- The synthesis-call texts of a trace, in order. -/
def synthTexts (tr : List Effect) : List String :=
  tr.filterMap fun e => match e with | Effect.synthCall t => some t | _ => none

/-- The incremental reply-notification texts of a trace, in order. -/
def responseTexts (tr : List Effect) : List String :=
  tr.filterMap fun e => match e with | Effect.responseMsg t => some t | _ => none

/-- Whether an effect is a pipeline launch. -/
def isLaunch (e : Effect) : Bool :=
  match e with | Effect.launchPipeline => true | _ => false

/-- Whether an effect is a trigger evaluation. -/
def isTriggerCk (e : Effect) : Bool :=
  match e with | Effect.triggerCheck _ => true | _ => false

/-- How many response pipelines a trace has launched. -/
def launchCount (tr : List Effect) : Nat := tr.countP isLaunch

/-- How many trigger evaluations a trace records. -/
def triggerCheckCount (tr : List Effect) : Nat := tr.countP isTriggerCk

/-- Status accompaniment: every recorded state transition has a status frame
    carrying that state's name, or (for transitions to IDLE) an ERROR status
    frame in its stead. -/
def accompanied (tr : List Effect) : Prop :=
  ∀ st : State, Effect.stateChange st ∈ tr →
    (∃ d, Effect.statusMsg st.str d ∈ tr) ∨
    (st = StateIdle ∧ ∃ d, Effect.statusMsg "ERROR" d ∈ tr)

/-- Session survival: the second system has the same closed flag, the same
    connection-closed flag and the same registry-removal flag as the first -
    an operation taking the first to the second neither closed nor removed
    the session. -/
def persists (s t : Sys) : Prop :=
  t.cs.closed = s.cs.closed ∧ t.conn.isClosed = s.conn.isClosed ∧ t.removed = s.removed

/-- The parsed form of the control frame with action "stop". -/
def stopCmd : Option (List (String × String)) := some [("action", "stop")]

/-- A demo collaborator environment in which every backend is reachable and
    succeeds; scenarios below override individual fields. -/
def demoApp : App :=
  { hasVad := true, hasTrigger := true, hasStt := true, hasLlm := true, hasTts := true,
    triggerResult := true,
    transcribeResult := Except.ok "Hello, how can I help you today?",
    llmStream := Except.ok [],
    ttsResult := fun _ => Except.ok [] }

/-- The sentence-segmentation scenario environment: the generation stream
    delivers the five fragments of the spec scenario. -/
def segApp : App :=
  { demoApp with llmStream := Except.ok ["Hi, ", "how are ", "you? ", "I'm ", "fine."] }

/-- A scenario environment whose synthesis backend is reachable but fails
    on every call. -/
def ttsFailApp : App :=
  { demoApp with llmStream := Except.ok ["Hello. Bye"],
                 ttsResult := fun _ => Except.error "TTS backend failure" }

/-- A scenario environment with no transcription backend. -/
def noSttApp : App := { demoApp with hasStt := false }

/-- A scenario environment whose transcription backend fails. -/
def sttFailApp : App := { demoApp with transcribeResult := Except.error "stt down" }

/-- A scenario environment whose generation stream delivers one fragment
    that completes a sentence with text left over. -/
def midSentenceApp : App := { demoApp with llmStream := Except.ok ["Hi. Bye"] }

/-! ## Basic lemmas about the primitive operations -/

theorem writeMsg_trace_cases (e : Effect) (s : Sys) :
    (writeMsg e s).trace = s.trace ++ [e] ∨
    (writeMsg e s).trace = s.trace ++ [e, Effect.writeFailed] := by
  unfold writeMsg
  split
  · left; rfl
  · right; simp [Sys.emit]

theorem writeMsg_cs (e : Effect) (s : Sys) : (writeMsg e s).cs = s.cs := by
  unfold writeMsg
  split <;> rfl

theorem writeMsg_mem (e : Effect) (s : Sys) : e ∈ (writeMsg e s).trace := by
  rcases writeMsg_trace_cases e s with h | h <;> simp [h]

theorem mem_writeMsg (e e' : Effect) (s : Sys) (h : e ∈ s.trace) :
    e ∈ (writeMsg e' s).trace := by
  rcases writeMsg_trace_cases e' s with hw | hw <;> rw [hw] <;> simp [h]

theorem sendStatus_cs (st : State) (d : String) (s : Sys) :
    (sendStatus st d s).cs = s.cs := writeMsg_cs _ s

theorem sendTranscript_cs (t : String) (b : Bool) (s : Sys) :
    (sendTranscript t b s).cs = s.cs := writeMsg_cs _ s

theorem sendResponse_cs (t : String) (s : Sys) :
    (sendResponse t s).cs = s.cs := writeMsg_cs _ s

theorem setState_state (st : State) (s : Sys) : (setState st s).cs.state = st := rfl

theorem synthesizeAndSend_cs (app : App) (t : String) (s : Sys) :
    (synthesizeAndSend app t s).cs = s.cs := by
  unfold synthesizeAndSend
  split
  · split
    · rfl
    · rw [writeMsg_cs]
      rfl
  · rfl

theorem streamStep_cs (app : App) (resp cur : String) (s : Sys) :
    ((streamStep app resp cur s).2).cs = s.cs := by
  unfold streamStep
  dsimp only
  rw [sendResponse_cs]
  split
  · split
    · rw [synthesizeAndSend_cs]
    · rfl
  · rfl

theorem streamLoop_state (app : App) (frags : List String) (cur : String) (s : Sys) :
    (streamLoop app frags cur s).cs.state = StateIdle := by
  induction frags generalizing cur s with
  | nil =>
    unfold streamLoop
    rw [sendStatus_cs]
    rfl
  | cons f rest ih =>
    unfold streamLoop
    exact ih _ _

theorem removeCancelFunc_state (k : String) (s : Sys) :
    (removeCancelFunc k s).cs.state = s.cs.state := rfl

theorem processAudio_state (app : App) (s : Sys) :
    (processAudio app s).cs.state = StateIdle := by
  unfold processAudio processAudioCore
  split
  · split
    · rfl
    · split
      · split
        · rfl
        · rw [removeCancelFunc_state, streamLoop_state]
      · rfl
  · rfl

/-! ## C9: bounded VAD event channel with drop-newest-on-full policy -/

/-- C9: the detector event channel is bounded; a send on a full channel
    returns at once, discarding the new (newest) event, while a send on a
    channel with room appends the event; already-queued events are never
    dropped, and the channel never exceeds its capacity. -/
theorem vad_channel_drop_newest (chan : List VadEvent) (ev : VadEvent) :
    (¬ chan.length < vadEventChanCap → trySendEvent chan ev = (chan, false)) ∧
    (chan.length < vadEventChanCap → trySendEvent chan ev = (chan ++ [ev], true)) ∧
    (∃ tail, (trySendEvent chan ev).1 = chan ++ tail) ∧
    (chan.length ≤ vadEventChanCap → (trySendEvent chan ev).1.length ≤ vadEventChanCap) := by
  have hfull : ¬ chan.length < vadEventChanCap → trySendEvent chan ev = (chan, false) :=
    fun h => by simp [trySendEvent, h]
  have hroom : chan.length < vadEventChanCap → trySendEvent chan ev = (chan ++ [ev], true) :=
    fun h => by simp [trySendEvent, h]
  refine ⟨hfull, hroom, ?_, ?_⟩
  · by_cases h : chan.length < vadEventChanCap
    · exact ⟨[ev], by rw [hroom h]⟩
    · exact ⟨[], by rw [hfull h]; simp⟩
  · intro hle
    by_cases h : chan.length < vadEventChanCap
    · rw [hroom h]
      simp only [List.length_append, List.length_singleton]
      simp only [vadEventChanCap] at h ⊢
      omega
    · rw [hfull h]
      exact hle

/-- Witness for C9 at a concrete full channel and a concrete channel with
    room. -/
theorem vad_channel_drop_newest_witness :
    trySendEvent (List.replicate 100 ⟨"start", ""⟩) ⟨"end", "m"⟩ =
      (List.replicate 100 ⟨"start", ""⟩, false) ∧
    trySendEvent [] ⟨"start", ""⟩ = ([⟨"start", ""⟩], true) := by
  constructor
  · exact (vad_channel_drop_newest _ _).1 (by simp [vadEventChanCap])
  · exact (vad_channel_drop_newest _ _).2.1 (by simp [vadEventChanCap])

/-! ## C4: only the listed transitions happen -/

/-- C4: an end event while IDLE only clears the voice-activity flag (the
    state, buffer, trace and registry are untouched); a start event while
    TRIGGERED, PROCESSING or SPEAKING only sets the voice-activity flag (in
    particular no trigger evaluation is started and no state changes); and
    for every event the session either keeps its state, takes the listed
    IDLE-to-TRIGGERED edge, or takes the TRIGGERED end edge whose pipeline
    finishes back at IDLE. -/
theorem transition_table_respected (app : App) (m : String) (s : Sys) :
    (s.cs.state = StateIdle →
      vadEventStep app ⟨"end", m⟩ s = { s with cs := { s.cs with vadActive := false } }) ∧
    ((s.cs.state = StateTriggered ∨ s.cs.state = StateProcessing ∨
        s.cs.state = StateSpeaking) →
      vadEventStep app ⟨"start", m⟩ s = { s with cs := { s.cs with vadActive := true } }) ∧
    (∀ ev : VadEvent,
      (vadEventStep app ev s).cs.state = s.cs.state ∨
      (s.cs.state = StateIdle ∧ (vadEventStep app ev s).cs.state = StateTriggered) ∨
      (s.cs.state = StateTriggered ∧ (vadEventStep app ev s).cs.state = StateIdle)) := by
  refine ⟨?_, ?_, ?_⟩
  · intro h
    simp [vadEventStep, h]
  · intro h
    rcases h with h | h | h <;> simp [vadEventStep, h]
  · intro ev
    by_cases h1 : ev.type = "start"
    · by_cases h2 : s.cs.state = StateIdle
      · cases h3 : app.hasTrigger
        · left
          simp [vadEventStep, h1, h2, h3]
        · cases h4 : app.triggerResult
          · left
            simp [vadEventStep, h1, h2, h3, h4, Sys.emit]
          · right; left
            refine ⟨h2, ?_⟩
            simp [vadEventStep, h1, h2, h3, h4, Sys.emit, setState, sendStatus, writeMsg_cs]
      · left
        simp [vadEventStep, h1, h2]
    · by_cases h5 : ev.type = "end"
      · by_cases h6 : s.cs.state = StateTriggered
        · right; right
          refine ⟨h6, ?_⟩
          simp [vadEventStep, h1, h5, h6, Sys.emit, processAudio_state]
        · left
          simp [vadEventStep, h1, h5, h6]
      · left
        simp [vadEventStep, h1, h5]

/-! ## Counting pipeline launches -/

@[simp] theorem isLaunch_statusMsg (a b : String) : isLaunch (Effect.statusMsg a b) = false := rfl

@[simp] theorem isLaunch_transcriptMsg (a : String) (b : Bool) :
    isLaunch (Effect.transcriptMsg a b) = false := rfl

@[simp] theorem isLaunch_responseMsg (a : String) : isLaunch (Effect.responseMsg a) = false := rfl

@[simp] theorem isLaunch_binaryAudio (d : Chunk) : isLaunch (Effect.binaryAudio d) = false := rfl

@[simp] theorem isLaunch_writeFailed : isLaunch Effect.writeFailed = false := rfl

@[simp] theorem isLaunch_stateChange (st : State) :
    isLaunch (Effect.stateChange st) = false := rfl

@[simp] theorem isLaunch_triggerCheck (a : Option Chunk) :
    isLaunch (Effect.triggerCheck a) = false := rfl

@[simp] theorem isLaunch_transcribeCall (c : List Chunk) :
    isLaunch (Effect.transcribeCall c) = false := rfl

@[simp] theorem isLaunch_generateCall (p : String) :
    isLaunch (Effect.generateCall p) = false := rfl

@[simp] theorem isLaunch_synthCall (t : String) : isLaunch (Effect.synthCall t) = false := rfl

@[simp] theorem isLaunch_vadForward (c : Chunk) : isLaunch (Effect.vadForward c) = false := rfl

@[simp] theorem isLaunch_cancelFired (k : String) :
    isLaunch (Effect.cancelFired k) = false := rfl

@[simp] theorem isLaunch_launchPipeline : isLaunch Effect.launchPipeline = true := rfl

@[simp] theorem launchCount_nil : launchCount [] = 0 := rfl

@[simp] theorem launchCount_cons (e : Effect) (tr : List Effect) :
    launchCount (e :: tr) = launchCount tr + (if isLaunch e then 1 else 0) :=
  List.countP_cons _ _ _

@[simp] theorem launchCount_append (a b : List Effect) :
    launchCount (a ++ b) = launchCount a + launchCount b := by
  simp [launchCount, List.countP_append]

theorem launchCount_writeMsg (e : Effect) (s : Sys) :
    launchCount (writeMsg e s).trace = launchCount s.trace + launchCount [e] := by
  rcases writeMsg_trace_cases e s with h | h <;> simp [h]

@[simp] theorem launchCount_sendStatus (st : State) (d : String) (s : Sys) :
    launchCount (sendStatus st d s).trace = launchCount s.trace := by
  unfold sendStatus
  rw [launchCount_writeMsg]
  simp

@[simp] theorem launchCount_sendTranscript (t : String) (b : Bool) (s : Sys) :
    launchCount (sendTranscript t b s).trace = launchCount s.trace := by
  unfold sendTranscript
  rw [launchCount_writeMsg]
  simp

@[simp] theorem launchCount_sendResponse (t : String) (s : Sys) :
    launchCount (sendResponse t s).trace = launchCount s.trace := by
  unfold sendResponse
  rw [launchCount_writeMsg]
  simp

@[simp] theorem launchCount_setState (st : State) (s : Sys) :
    launchCount (setState st s).trace = launchCount s.trace := by
  simp [setState, Sys.emit]

@[simp] theorem launchCount_synthesizeAndSend (app : App) (t : String) (s : Sys) :
    launchCount (synthesizeAndSend app t s).trace = launchCount s.trace := by
  unfold synthesizeAndSend
  split
  · split
    · simp [Sys.emit]
    · rw [launchCount_writeMsg]
      simp [Sys.emit]
  · rfl

@[simp] theorem launchCount_streamStep (app : App) (r c : String) (s : Sys) :
    launchCount ((streamStep app r c s).2).trace = launchCount s.trace := by
  unfold streamStep
  dsimp only
  split
  · split <;> simp
  · simp

@[simp] theorem launchCount_streamLoop (app : App) (frags : List String) (cur : String)
    (s : Sys) : launchCount (streamLoop app frags cur s).trace = launchCount s.trace := by
  induction frags generalizing cur s with
  | nil =>
    unfold streamLoop
    dsimp only
    split <;> simp
  | cons f rest ih =>
    unfold streamLoop
    dsimp only
    rw [ih]
    simp

@[simp] theorem removeCancelFunc_trace (k : String) (s : Sys) :
    (removeCancelFunc k s).trace = s.trace := rfl

theorem addCancelFunc_trace (k : String) (s : Sys) :
    (addCancelFunc k s).trace = s.trace := by
  unfold addCancelFunc
  split <;> rfl

@[simp] theorem launchCount_processAudio (app : App) (s : Sys) :
    launchCount (processAudio app s).trace = launchCount s.trace := by
  have hcore : ∀ (buf : List Chunk) (t : Sys),
      launchCount (processAudioCore app buf t).trace = launchCount t.trace := by
    intro buf t
    unfold processAudioCore
    split
    · split
      · simp [Sys.emit]
      · split
        · split
          · simp [Sys.emit]
          · simp [Sys.emit]
        · simp [Sys.emit]
    · simp
  unfold processAudio
  dsimp only
  rw [removeCancelFunc_trace, hcore]
  dsimp only
  rw [show (addCancelFunc "processing" (sendStatus StateProcessing
      "Processing your request..." (setState StateProcessing s))).trace =
      (sendStatus StateProcessing "Processing your request..."
        (setState StateProcessing s)).trace from addCancelFunc_trace _ _]
  simp

/-- Trace of the fold that fires every registered cancellation handle. -/
theorem foldl_cancelFired_trace (l : List String) (s : Sys) :
    (l.foldl (fun acc k => acc.emit (Effect.cancelFired k)) s).trace =
      s.trace ++ l.map Effect.cancelFired := by
  induction l generalizing s with
  | nil => simp
  | cons k rest ih =>
    rw [List.foldl_cons, ih]
    simp [Sys.emit]

/-- The fold that fires cancellation handles does not touch the ClientState. -/
theorem foldl_cancelFired_cs (l : List String) (s : Sys) :
    (l.foldl (fun acc k => acc.emit (Effect.cancelFired k)) s).cs = s.cs := by
  induction l generalizing s with
  | nil => rfl
  | cons k rest ih =>
    rw [List.foldl_cons, ih]
    rfl

theorem cancelAllOperations_trace (s : Sys) :
    (cancelAllOperations s).trace = s.trace ++ s.cs.cancelFuncs.map Effect.cancelFired := by
  unfold cancelAllOperations
  dsimp only
  rw [foldl_cancelFired_trace]

@[simp] theorem launchCount_cancelAllOperations (s : Sys) :
    launchCount (cancelAllOperations s).trace = launchCount s.trace := by
  rw [cancelAllOperations_trace, launchCount_append]
  have : launchCount (s.cs.cancelFuncs.map Effect.cancelFired) = 0 := by
    simp [launchCount, List.countP_eq_zero, isLaunch]
  omega

@[simp] theorem launchCount_resetState (s : Sys) :
    launchCount (resetState s).trace = launchCount s.trace := by
  unfold resetState
  dsimp only
  simp

@[simp] theorem launchCount_handleTextCommand (cmd : Option (List (String × String)))
    (s : Sys) : launchCount (handleTextCommand cmd s).trace = launchCount s.trace := by
  unfold handleTextCommand
  split
  · rfl
  · split
    · simp
    · simp
    · rfl

@[simp] theorem launchCount_handleAudioData (app : App) (d : Chunk) (s : Sys) :
    launchCount (handleAudioData app d s).trace = launchCount s.trace := by
  unfold handleAudioData
  split <;>
    split <;>
      simp [Sys.emit, launchCount, List.countP_append, List.countP_cons, isLaunch]

/-! ## Reply-fragment forwarding lemmas -/

@[simp] theorem responseTexts_nil : responseTexts [] = [] := rfl

@[simp] theorem responseTexts_cons_statusMsg (a b : String) (tr : List Effect) :
    responseTexts (Effect.statusMsg a b :: tr) = responseTexts tr := rfl

@[simp] theorem responseTexts_cons_transcriptMsg (a : String) (b : Bool) (tr : List Effect) :
    responseTexts (Effect.transcriptMsg a b :: tr) = responseTexts tr := rfl

@[simp] theorem responseTexts_cons_responseMsg (t : String) (tr : List Effect) :
    responseTexts (Effect.responseMsg t :: tr) = t :: responseTexts tr := rfl

@[simp] theorem responseTexts_cons_binaryAudio (d : Chunk) (tr : List Effect) :
    responseTexts (Effect.binaryAudio d :: tr) = responseTexts tr := rfl

@[simp] theorem responseTexts_cons_writeFailed (tr : List Effect) :
    responseTexts (Effect.writeFailed :: tr) = responseTexts tr := rfl

@[simp] theorem responseTexts_cons_stateChange (st : State) (tr : List Effect) :
    responseTexts (Effect.stateChange st :: tr) = responseTexts tr := rfl

@[simp] theorem responseTexts_cons_triggerCheck (a : Option Chunk) (tr : List Effect) :
    responseTexts (Effect.triggerCheck a :: tr) = responseTexts tr := rfl

@[simp] theorem responseTexts_cons_transcribeCall (c : List Chunk) (tr : List Effect) :
    responseTexts (Effect.transcribeCall c :: tr) = responseTexts tr := rfl

@[simp] theorem responseTexts_cons_generateCall (p : String) (tr : List Effect) :
    responseTexts (Effect.generateCall p :: tr) = responseTexts tr := rfl

@[simp] theorem responseTexts_cons_synthCall (t : String) (tr : List Effect) :
    responseTexts (Effect.synthCall t :: tr) = responseTexts tr := rfl

@[simp] theorem responseTexts_cons_vadForward (c : Chunk) (tr : List Effect) :
    responseTexts (Effect.vadForward c :: tr) = responseTexts tr := rfl

@[simp] theorem responseTexts_cons_cancelFired (k : String) (tr : List Effect) :
    responseTexts (Effect.cancelFired k :: tr) = responseTexts tr := rfl

@[simp] theorem responseTexts_cons_launchPipeline (tr : List Effect) :
    responseTexts (Effect.launchPipeline :: tr) = responseTexts tr := rfl

@[simp] theorem responseTexts_append (a b : List Effect) :
    responseTexts (a ++ b) = responseTexts a ++ responseTexts b := by
  simp [responseTexts, List.filterMap_append]

theorem responseTexts_writeMsg (e : Effect) (s : Sys) :
    responseTexts (writeMsg e s).trace = responseTexts s.trace ++ responseTexts [e] := by
  rcases writeMsg_trace_cases e s with h | h
  · simp [h]
  · have h2 : responseTexts [e, Effect.writeFailed] = responseTexts [e] := by
      cases e <;> rfl
    rw [h, responseTexts_append, h2]

@[simp] theorem responseTexts_sendStatus (st : State) (d : String) (s : Sys) :
    responseTexts (sendStatus st d s).trace = responseTexts s.trace := by
  unfold sendStatus
  rw [responseTexts_writeMsg]
  simp

@[simp] theorem responseTexts_sendTranscript (t : String) (b : Bool) (s : Sys) :
    responseTexts (sendTranscript t b s).trace = responseTexts s.trace := by
  unfold sendTranscript
  rw [responseTexts_writeMsg]
  simp

@[simp] theorem responseTexts_sendResponse (t : String) (s : Sys) :
    responseTexts (sendResponse t s).trace = responseTexts s.trace ++ [t] := by
  unfold sendResponse
  rw [responseTexts_writeMsg]
  simp

@[simp] theorem responseTexts_setState (st : State) (s : Sys) :
    responseTexts (setState st s).trace = responseTexts s.trace := by
  simp [setState, Sys.emit]

@[simp] theorem responseTexts_synthesizeAndSend (app : App) (t : String) (s : Sys) :
    responseTexts (synthesizeAndSend app t s).trace = responseTexts s.trace := by
  unfold synthesizeAndSend
  split
  · split
    · simp [Sys.emit]
    · rw [responseTexts_writeMsg]
      simp [Sys.emit]
  · rfl

@[simp] theorem responseTexts_streamStep (app : App) (r c : String) (s : Sys) :
    responseTexts ((streamStep app r c s).2).trace = responseTexts s.trace ++ [r] := by
  unfold streamStep
  dsimp only
  split
  · split <;> simp
  · simp

theorem responseTexts_streamLoop (app : App) (frags : List String) (cur : String) (s : Sys) :
    responseTexts (streamLoop app frags cur s).trace = responseTexts s.trace ++ frags := by
  induction frags generalizing cur s with
  | nil =>
    unfold streamLoop
    dsimp only
    split <;> simp
  | cons f rest ih =>
    unfold streamLoop
    dsimp only
    rw [ih, responseTexts_streamStep]
    simp

theorem synthesizeAndSend_trace_cases (app : App) (t : String) (s : Sys) :
    ∃ seg, (synthesizeAndSend app t s).trace = s.trace ++ seg ∧ responseTexts seg = [] := by
  cases h : app.hasTts with
  | false => exact ⟨[], by unfold synthesizeAndSend; simp [h], rfl⟩
  | true =>
    cases hts : app.ttsResult t with
    | error e =>
      refine ⟨[Effect.synthCall t], ?_, rfl⟩
      unfold synthesizeAndSend
      simp [h, hts, Sys.emit]
    | ok audio =>
      have hrw : synthesizeAndSend app t s =
          writeMsg (Effect.binaryAudio audio) (s.emit (Effect.synthCall t)) := by
        unfold synthesizeAndSend
        simp [h, hts]
      rcases writeMsg_trace_cases (Effect.binaryAudio audio)
          (s.emit (Effect.synthCall t)) with hw | hw
      · refine ⟨[Effect.synthCall t, Effect.binaryAudio audio], ?_, rfl⟩
        rw [hrw, hw]
        simp [Sys.emit]
      · refine ⟨[Effect.synthCall t, Effect.binaryAudio audio, Effect.writeFailed], ?_, rfl⟩
        rw [hrw, hw]
        simp [Sys.emit]

/-! ## C8: incremental forwarding of generation fragments -/

/-- C8 counterexample: in the run whose single fragment "Hi. Bye" completes
    the sentence "Hi.", the synthesis call and the audio write for that
    sentence happen before the fragment's incremental reply notification is
    sent, so the fragment text does not reach the client before synthesis
    of the sentence it completes (the full trace makes the order explicit,
    and the index comparison pins it down). -/
theorem fragment_forwarded_after_synthesis :
    (processAudio midSentenceApp (mkSys [])).trace =
      [Effect.stateChange StateProcessing,
       Effect.statusMsg "PROCESSING" "Processing your request...",
       Effect.transcribeCall [],
       Effect.transcriptMsg "Hello, how can I help you today?" true,
       Effect.generateCall "Hello, how can I help you today?",
       Effect.stateChange StateSpeaking, Effect.statusMsg "SPEAKING" "Speaking...",
       Effect.synthCall "Hi.", Effect.binaryAudio [], Effect.responseMsg "Hi. Bye",
       Effect.synthCall " Bye", Effect.binaryAudio [],
       Effect.stateChange StateIdle, Effect.statusMsg "IDLE" "Ready"] ∧
    (processAudio midSentenceApp (mkSys [])).trace.findIdx
        (fun e => decide (e = Effect.synthCall "Hi.")) <
      (processAudio midSentenceApp (mkSys [])).trace.findIdx
        (fun e => decide (e = Effect.responseMsg "Hi. Bye")) := by
  exact ⟨rfl, by decide⟩

/-- C8 amended: every generation fragment is forwarded exactly once, in
    arrival order, as an incremental reply notification - each stream-loop
    iteration ends by sending its fragment's notification - but when the
    fragment completes a sentence, that sentence's synthesis and audio
    dispatch happen earlier in the same iteration, before the notification. -/
theorem fragments_forwarded_in_order :
    (∀ (app : App) (frags : List String) (cur : String) (s : Sys),
      responseTexts (streamLoop app frags cur s).trace = responseTexts s.trace ++ frags) ∧
    (∀ (app : App) (resp cur : String) (s : Sys),
      ∃ mid tail, ((streamStep app resp cur s).2).trace =
          s.trace ++ mid ++ Effect.responseMsg resp :: tail ∧
        responseTexts mid = [] ∧ responseTexts tail = []) := by
  constructor
  · exact responseTexts_streamLoop
  · intro app resp cur s
    have key : ∀ s' : Sys,
        (∃ seg, s'.trace = s.trace ++ seg ∧ responseTexts seg = []) →
        ∃ mid tail, (sendResponse resp s').trace =
            s.trace ++ mid ++ Effect.responseMsg resp :: tail ∧
          responseTexts mid = [] ∧ responseTexts tail = [] := by
      rintro s' ⟨seg, hseg, hr⟩
      unfold sendResponse
      rcases writeMsg_trace_cases (Effect.responseMsg resp) s' with hw | hw
      · exact ⟨seg, [], by rw [hw, hseg]; try simp, hr, rfl⟩
      · exact ⟨seg, [Effect.writeFailed], by rw [hw, hseg]; try simp, hr, rfl⟩
    unfold streamStep
    dsimp only
    split
    · split
      · exact key _ (synthesizeAndSend_trace_cases app _ s)
      · exact key _ ⟨[], by simp, rfl⟩
    · exact key _ ⟨[], by simp, rfl⟩

/-! ## Registry bookkeeping lemmas -/

theorem mem_resetState (e : Effect) (s : Sys) (h : e ∈ s.trace) :
    e ∈ (resetState s).trace := by
  unfold resetState sendStatus
  dsimp only
  apply mem_writeMsg
  simp [setState, Sys.emit, h]

theorem resetState_state (s : Sys) : (resetState s).cs.state = StateIdle := by
  unfold resetState
  rw [sendStatus_cs]
  rfl

theorem resetState_cancelFuncs (s : Sys) :
    (resetState s).cs.cancelFuncs = s.cs.cancelFuncs := by
  unfold resetState
  rw [sendStatus_cs]
  rfl

theorem cancelAllOperations_cancelFuncs (s : Sys) :
    (cancelAllOperations s).cs.cancelFuncs = [] := rfl

theorem streamLoop_cancelFuncs (app : App) (frags : List String) (cur : String) (s : Sys) :
    (streamLoop app frags cur s).cs.cancelFuncs = s.cs.cancelFuncs := by
  induction frags generalizing cur s with
  | nil =>
    unfold streamLoop
    dsimp only
    rw [sendStatus_cs]
    split
    · rw [show (setState StateIdle (synthesizeAndSend app cur s)).cs.cancelFuncs =
        (synthesizeAndSend app cur s).cs.cancelFuncs from rfl, synthesizeAndSend_cs]
    · rfl
  | cons f rest ih =>
    unfold streamLoop
    dsimp only
    rw [ih, streamStep_cs]

theorem processAudioCore_cancelFuncs (app : App) (buf : List Chunk) (t : Sys) :
    (processAudioCore app buf t).cs.cancelFuncs = t.cs.cancelFuncs := by
  unfold processAudioCore
  split
  · split
    · rw [show ∀ u : Sys, (setState StateIdle u).cs.cancelFuncs = u.cs.cancelFuncs
        from fun u => rfl, sendStatus_cs]
      rfl
    · split
      · split
        · rw [show ∀ u : Sys, (setState StateIdle u).cs.cancelFuncs = u.cs.cancelFuncs
            from fun u => rfl, sendStatus_cs]
          rw [show ∀ u : Sys, (Sys.emit u (Effect.generateCall _)).cs.cancelFuncs =
            u.cs.cancelFuncs from fun u => rfl, sendTranscript_cs]
          rfl
        · rw [streamLoop_cancelFuncs, sendStatus_cs]
          rw [show ∀ u : Sys, (setState StateSpeaking u).cs.cancelFuncs = u.cs.cancelFuncs
            from fun u => rfl]
          rw [show ∀ u : Sys, (Sys.emit u (Effect.generateCall _)).cs.cancelFuncs =
            u.cs.cancelFuncs from fun u => rfl, sendTranscript_cs]
          rfl
      · rw [show ∀ u : Sys, (setState StateIdle u).cs.cancelFuncs = u.cs.cancelFuncs
          from fun u => rfl, sendStatus_cs, sendTranscript_cs]
        rfl
  · rw [show ∀ u : Sys, (setState StateIdle u).cs.cancelFuncs = u.cs.cancelFuncs
      from fun u => rfl, sendStatus_cs]

/-- The response pipeline's registry effect: the "processing" key is removed
    on exit (the defer) and every other key is left in place. -/
theorem processAudio_cancelFuncs (app : App) (s : Sys) :
    (processAudio app s).cs.cancelFuncs =
      s.cs.cancelFuncs.filter (fun k => decide (k ≠ "processing")) := by
  unfold processAudio
  dsimp only
  rw [show ∀ u : Sys, (removeCancelFunc "processing" u).cs.cancelFuncs =
    u.cs.cancelFuncs.filter (fun k => decide (k ≠ "processing")) from fun u => rfl]
  rw [processAudioCore_cancelFuncs]
  have h2 : (sendStatus StateProcessing "Processing your request..."
      (setState StateProcessing s)).cs.cancelFuncs = s.cs.cancelFuncs := by
    rw [sendStatus_cs]
    rfl
  unfold addCancelFunc
  split
  · next hp =>
    rw [h2] at hp ⊢
  · next hp =>
    rw [h2] at hp ⊢
    simp

/-! ## C5: stop cancels everything, normal completion removes only itself -/

/-- C5: on the stop control message every registered cancellation handle is
    fired, the registry is cleared, the state returns to IDLE and an
    IDLE/Ready status is sent; by contrast the response pipeline's normal
    exit removes only its own "processing" registry entry, leaving every
    other key registered. -/
theorem stop_cancels_all_and_resets (s : Sys) :
    ((handleTextCommand stopCmd s).cs.cancelFuncs = [] ∧
     (handleTextCommand stopCmd s).cs.state = StateIdle ∧
     Effect.statusMsg "IDLE" "Ready" ∈ (handleTextCommand stopCmd s).trace ∧
     (∀ k, k ∈ s.cs.cancelFuncs →
       Effect.cancelFired k ∈ (handleTextCommand stopCmd s).trace)) ∧
    (∀ app : App,
      "processing" ∉ (processAudio app s).cs.cancelFuncs ∧
      ∀ k, k ∈ s.cs.cancelFuncs → k ≠ "processing" →
        k ∈ (processAudio app s).cs.cancelFuncs) := by
  have hcmd : handleTextCommand stopCmd s = resetState (cancelAllOperations s) := rfl
  constructor
  · refine ⟨?_, ?_, ?_, ?_⟩
    · rw [hcmd, resetState_cancelFuncs, cancelAllOperations_cancelFuncs]
    · rw [hcmd, resetState_state]
    · rw [hcmd]
      unfold resetState
      exact writeMsg_mem _ _
    · intro k hk
      rw [hcmd]
      apply mem_resetState
      rw [cancelAllOperations_trace]
      simp only [List.mem_append, List.mem_map]
      exact Or.inr ⟨k, hk, rfl⟩
  · intro app
    rw [processAudio_cancelFuncs]
    constructor
    · simp
    · intro k hk hkp
      simp [List.mem_filter, hk, hkp]

/-- Witness for C5 at a concrete session with two registered handles. -/
theorem stop_cancels_all_and_resets_witness :
    Effect.cancelFired "vadTrigger" ∈
      (handleTextCommand stopCmd
        { mkSys [] with cs := { (mkSys []).cs with
            cancelFuncs := ["vadTrigger", "processing"] } }).trace ∧
    "vadTrigger" ∈
      (processAudio demoApp
        { mkSys [] with cs := { (mkSys []).cs with
            cancelFuncs := ["vadTrigger", "processing"] } }).cs.cancelFuncs := by
  constructor
  · exact (stop_cancels_all_and_resets _).1.2.2.2 "vadTrigger" (by decide)
  · exact ((stop_cancels_all_and_resets _).2 demoApp).2 "vadTrigger" (by decide) (by decide)

/-! ## C3: at most one response pipeline per session -/

/-- C3: a VAD event launches a response pipeline exactly when it is an end
    event arriving while the session is TRIGGERED - no end event can start a
    pipeline in any other state (and the launched pipeline immediately
    leaves TRIGGERED, so a second launch needs a fresh trigger); the reader
    loop (audio frames and control commands) never launches a pipeline. -/
theorem single_pipeline_per_session (app : App) (ev : VadEvent) (s : Sys) :
    (launchCount (vadEventStep app ev s).trace =
      launchCount s.trace +
        (if ev.type = "end" ∧ s.cs.state = StateTriggered then 1 else 0)) ∧
    (∀ msgs : List InMsg, launchCount (clientLoop app msgs s).trace = launchCount s.trace) := by
  constructor
  · by_cases h1 : ev.type = "start"
    · have hne : ¬(ev.type = "end" ∧ s.cs.state = StateTriggered) := by
        rw [h1]; simp
      rw [if_neg hne]
      by_cases h2 : s.cs.state = StateIdle
      · cases h3 : app.hasTrigger
        · simp [vadEventStep, h1, h2, h3]
        · cases h4 : app.triggerResult
          · simp [vadEventStep, h1, h2, h3, h4, Sys.emit]
          · simp [vadEventStep, h1, h2, h3, h4, Sys.emit]
      · simp [vadEventStep, h1, h2]
    · by_cases h5 : ev.type = "end"
      · by_cases h6 : s.cs.state = StateTriggered
        · rw [if_pos ⟨h5, h6⟩]
          simp [vadEventStep, h1, h5, h6, Sys.emit]
        · rw [if_neg (fun hc => h6 hc.2)]
          simp [vadEventStep, h1, h5, h6]
      · rw [if_neg (fun hc => h5 hc.1)]
        simp [vadEventStep, h1, h5]
  · intro msgs
    induction msgs generalizing s with
    | nil => rfl
    | cons msg rest ih =>
      cases msg with
      | binary d => rw [show clientLoop app (InMsg.binary d :: rest) s =
          clientLoop app rest (handleAudioData app d s) from rfl, ih]; simp
      | text cmd => rw [show clientLoop app (InMsg.text cmd :: rest) s =
          clientLoop app rest (handleTextCommand cmd s) from rfl, ih]; simp
      | readError => rfl

/-! ## C1: end-to-end utterance capture -/

set_option maxHeartbeats 1600000 in
/-- C1: from IDLE, a start event with a positive trigger makes the session
    TRIGGERED with an empty buffer; three audio chunks arriving while
    TRIGGERED are buffered in arrival order; the following end event records
    the transition to PROCESSING, drains the buffer and invokes the
    transcription collaborator with exactly those three chunks in order
    (the full effect trace of the run is given explicitly). -/
theorem utterance_capture_end_to_end (c1 c2 c3 : Chunk) (m1 m2 : String) :
    (vadEventStep demoApp ⟨"start", m1⟩ (mkSys [])).cs.state = StateTriggered ∧
    (vadEventStep demoApp ⟨"start", m1⟩ (mkSys [])).cs.audioBuffer = [] ∧
    (handleAudioData demoApp c3 (handleAudioData demoApp c2 (handleAudioData demoApp c1
      (vadEventStep demoApp ⟨"start", m1⟩ (mkSys []))))).cs.audioBuffer = [c1, c2, c3] ∧
    (vadEventStep demoApp ⟨"end", m2⟩ (handleAudioData demoApp c3 (handleAudioData demoApp c2
      (handleAudioData demoApp c1 (vadEventStep demoApp ⟨"start", m1⟩ (mkSys [])))))).trace =
    [Effect.triggerCheck none, Effect.stateChange StateTriggered,
     Effect.statusMsg "TRIGGERED" "Listening to you...",
     Effect.vadForward c1, Effect.vadForward c2, Effect.vadForward c3,
     Effect.launchPipeline, Effect.stateChange StateProcessing,
     Effect.statusMsg "PROCESSING" "Processing your request...",
     Effect.transcribeCall [c1, c2, c3],
     Effect.transcriptMsg "Hello, how can I help you today?" true,
     Effect.generateCall "Hello, how can I help you today?",
     Effect.stateChange StateSpeaking, Effect.statusMsg "SPEAKING" "Speaking...",
     Effect.stateChange StateIdle, Effect.statusMsg "IDLE" "Ready"] ∧
    (vadEventStep demoApp ⟨"end", m2⟩ (handleAudioData demoApp c3 (handleAudioData demoApp c2
      (handleAudioData demoApp c1 (vadEventStep demoApp ⟨"start", m1⟩
        (mkSys [])))))).cs.audioBuffer = [] := by
  exact ⟨rfl, rfl, rfl, rfl, rfl⟩

/-! ## C2: sentence segmentation -/

/-- C2 counterexample: fed the five scenario fragments, the pipeline's
    synthesis calls are not the claimed two texts - the second call carries
    the leading space left behind by the split of the first sentence. -/
theorem sentence_segmentation_claimed_texts_false :
    synthTexts (processAudio segApp (mkSys [])).trace ≠
      ["Hi, how are you?", "I'm fine."] := by decide

/-- C2 amended: fed the five scenario fragments, the pipeline makes exactly
    two synthesis calls, "Hi, how are you?" and then " I'm fine." (the
    remainder after a split keeps everything after the punctuation mark, so
    the flushed trailing sentence begins with the leftover space). -/
theorem sentence_segmentation_two_synth_calls :
    synthTexts (processAudio segApp (mkSys [])).trace =
      ["Hi, how are you?", " I'm fine."] := by rfl

/-- Witness for C4 at a concrete session in each hypothesis state. -/
theorem transition_table_respected_witness :
    vadEventStep demoApp ⟨"end", "m"⟩ (mkSys []) =
      { mkSys [] with cs := { (mkSys []).cs with vadActive := false } } ∧
    vadEventStep demoApp ⟨"start", "m"⟩ (setState StateSpeaking (mkSys [])) =
      { setState StateSpeaking (mkSys []) with cs :=
        { (setState StateSpeaking (mkSys [])).cs with vadActive := true } } := by
  constructor
  · exact (transition_table_respected demoApp "m" (mkSys [])).1 rfl
  · exact (transition_table_respected demoApp "m" (setState StateSpeaking (mkSys []))).2.1
      (Or.inr (Or.inr rfl))

/-! ## Session-survival lemmas: which operations can close or remove a session -/

theorem persists_refl (s : Sys) : persists s s := ⟨rfl, rfl, rfl⟩

theorem persists_trans {s t u : Sys} (h1 : persists s t) (h2 : persists t u) :
    persists s u :=
  ⟨h2.1.trans h1.1, (h2.2.1).trans h1.2.1, (h2.2.2).trans h1.2.2⟩

theorem Conn_write_isClosed (c : Conn) : (Conn.write c).1.isClosed = c.isClosed := by
  cases c with
  | mk rs cl => cases rs <;> rfl

theorem writeMsg_persists (e : Effect) (s : Sys) : persists s (writeMsg e s) := by
  unfold writeMsg
  split <;> exact ⟨rfl, Conn_write_isClosed s.conn, rfl⟩

theorem sendStatus_persists (st : State) (d : String) (s : Sys) :
    persists s (sendStatus st d s) := writeMsg_persists _ _

theorem sendTranscript_persists (t : String) (b : Bool) (s : Sys) :
    persists s (sendTranscript t b s) := writeMsg_persists _ _

theorem sendResponse_persists (t : String) (s : Sys) :
    persists s (sendResponse t s) := writeMsg_persists _ _

theorem emit_persists (s : Sys) (e : Effect) : persists s (s.emit e) := ⟨rfl, rfl, rfl⟩

theorem setState_persists (st : State) (s : Sys) : persists s (setState st s) :=
  ⟨rfl, rfl, rfl⟩

theorem synthesizeAndSend_persists (app : App) (t : String) (s : Sys) :
    persists s (synthesizeAndSend app t s) := by
  unfold synthesizeAndSend
  split
  · split
    · exact ⟨rfl, rfl, rfl⟩
    · exact persists_trans (emit_persists s _) (writeMsg_persists _ _)
  · exact persists_refl s

theorem streamStep_persists (app : App) (r c : String) (s : Sys) :
    persists s ((streamStep app r c s).2) := by
  unfold streamStep
  dsimp only
  split
  · split
    · exact persists_trans (synthesizeAndSend_persists _ _ _) (sendResponse_persists _ _)
    · exact sendResponse_persists _ _
  · exact sendResponse_persists _ _

theorem streamLoop_persists (app : App) (frags : List String) (cur : String) (s : Sys) :
    persists s (streamLoop app frags cur s) := by
  induction frags generalizing cur s with
  | nil =>
    unfold streamLoop
    dsimp only
    split
    · exact persists_trans (synthesizeAndSend_persists _ _ _)
        (persists_trans (setState_persists _ _) (sendStatus_persists _ _ _))
    · exact persists_trans (setState_persists _ _) (sendStatus_persists _ _ _)
  | cons f rest ih =>
    unfold streamLoop
    dsimp only
    exact persists_trans (streamStep_persists _ _ _ _) (ih _ _)

theorem addCancelFunc_persists (k : String) (s : Sys) : persists s (addCancelFunc k s) := by
  unfold addCancelFunc
  split <;> exact ⟨rfl, rfl, rfl⟩

theorem removeCancelFunc_persists (k : String) (s : Sys) :
    persists s (removeCancelFunc k s) := ⟨rfl, rfl, rfl⟩

theorem foldl_cancelFired_eq (l : List String) (s : Sys) :
    l.foldl (fun acc k => acc.emit (Effect.cancelFired k)) s =
      { s with trace := s.trace ++ l.map Effect.cancelFired } := by
  induction l generalizing s with
  | nil => simp
  | cons k rest ih =>
    rw [List.foldl_cons, ih]
    simp [Sys.emit]

theorem cancelAllOperations_persists (s : Sys) : persists s (cancelAllOperations s) := by
  unfold cancelAllOperations
  rw [foldl_cancelFired_eq]
  exact ⟨rfl, rfl, rfl⟩

theorem resetState_persists (s : Sys) : persists s (resetState s) := by
  unfold resetState
  dsimp only
  exact persists_trans (setState_persists _ _)
    (persists_trans ⟨rfl, rfl, rfl⟩ (sendStatus_persists _ _ _))

theorem handleTextCommand_persists (cmd : Option (List (String × String))) (s : Sys) :
    persists s (handleTextCommand cmd s) := by
  unfold handleTextCommand
  split
  · exact persists_refl s
  · split
    · exact resetState_persists _
    · exact persists_trans (cancelAllOperations_persists _) (resetState_persists _)
    · exact persists_refl s

theorem handleAudioData_persists (app : App) (d : Chunk) (s : Sys) :
    persists s (handleAudioData app d s) := by
  unfold handleAudioData
  split <;> split <;> exact ⟨rfl, rfl, rfl⟩

theorem clearBuffer_persists (u : Sys) :
    persists u { u with cs := { u.cs with audioBuffer := [] } } := ⟨rfl, rfl, rfl⟩

theorem setTranscript_persists (t : String) (u : Sys) :
    persists u { u with cs := { u.cs with transcript := t } } := ⟨rfl, rfl, rfl⟩

theorem setTriggered_persists (u : Sys) :
    persists u { u with cs := { u.cs with triggered := true } } := ⟨rfl, rfl, rfl⟩

theorem setVadActive_persists (b : Bool) (u : Sys) :
    persists u { u with cs := { u.cs with vadActive := b } } := ⟨rfl, rfl, rfl⟩

theorem processAudioCore_persists (app : App) (buf : List Chunk) (s : Sys) :
    persists s (processAudioCore app buf s) := by
  unfold processAudioCore
  split
  · split
    · refine persists_trans ?_ (setState_persists _ _)
      refine persists_trans ?_ (sendStatus_persists _ _ _)
      exact emit_persists _ _
    · split
      · split
        · refine persists_trans ?_ (setState_persists _ _)
          refine persists_trans ?_ (sendStatus_persists _ _ _)
          refine persists_trans ?_ (emit_persists _ _)
          refine persists_trans ?_ (sendTranscript_persists _ _ _)
          refine persists_trans ?_ (setTranscript_persists _ _)
          exact emit_persists _ _
        · refine persists_trans ?_ (streamLoop_persists _ _ _ _)
          refine persists_trans ?_ (sendStatus_persists _ _ _)
          refine persists_trans ?_ (setState_persists _ _)
          refine persists_trans ?_ (emit_persists _ _)
          refine persists_trans ?_ (sendTranscript_persists _ _ _)
          refine persists_trans ?_ (setTranscript_persists _ _)
          exact emit_persists _ _
      · refine persists_trans ?_ (setState_persists _ _)
        refine persists_trans ?_ (sendStatus_persists _ _ _)
        refine persists_trans ?_ (sendTranscript_persists _ _ _)
        refine persists_trans ?_ (setTranscript_persists _ _)
        exact emit_persists _ _
  · refine persists_trans ?_ (setState_persists _ _)
    exact sendStatus_persists _ _ _

theorem processAudio_persists (app : App) (s : Sys) : persists s (processAudio app s) := by
  unfold processAudio
  dsimp only
  refine persists_trans ?_ (removeCancelFunc_persists _ _)
  refine persists_trans ?_ (processAudioCore_persists _ _ _)
  refine persists_trans ?_ (clearBuffer_persists _)
  refine persists_trans ?_ (addCancelFunc_persists _ _)
  refine persists_trans ?_ (sendStatus_persists _ _ _)
  exact setState_persists _ _

theorem vadEventStep_persists (app : App) (ev : VadEvent) (s : Sys) :
    persists s (vadEventStep app ev s) := by
  unfold vadEventStep
  dsimp only
  split
  · split
    · split
      · split
        · refine persists_trans ?_ (clearBuffer_persists _)
          refine persists_trans ?_ (sendStatus_persists _ _ _)
          refine persists_trans ?_ (setState_persists _ _)
          refine persists_trans ?_ (setTriggered_persists _)
          refine persists_trans ?_ (emit_persists _ _)
          exact setVadActive_persists _ _
        · refine persists_trans ?_ (emit_persists _ _)
          exact setVadActive_persists _ _
      · exact setVadActive_persists _ _
    · exact setVadActive_persists _ _
  · split
    · split
      · refine persists_trans ?_ (processAudio_persists _ _)
        refine persists_trans ?_ (emit_persists _ _)
        exact setVadActive_persists _ _
      · exact setVadActive_persists _ _
    · exact persists_refl s

theorem vadLoop_persists (app : App) (events : List VadEvent) (s : Sys) :
    persists s (vadLoop app events s) := by
  induction events generalizing s with
  | nil => exact persists_refl s
  | cons ev rest ih =>
    exact persists_trans (vadEventStep_persists app ev s) (ih _)

theorem clientLoop_persists (app : App) (msgs : List InMsg) (s : Sys) :
    persists s (clientLoop app msgs s) := by
  induction msgs generalizing s with
  | nil => exact persists_refl s
  | cons msg rest ih =>
    cases msg with
    | binary d => exact persists_trans (handleAudioData_persists app d s) (ih _)
    | text cmd => exact persists_trans (handleTextCommand_persists cmd s) (ih _)
    | readError => exact persists_refl s

/-! ## Membership helpers -/

theorem mem_setState (e : Effect) (st : State) (s : Sys) (h : e ∈ s.trace) :
    e ∈ (setState st s).trace := by
  simp [setState, Sys.emit, h]

/-- The four possible trace extensions of synthesizeAndSend: nothing (TTS
    absent), only the synthesis call (TTS error), or the call plus the audio
    frame (plus possibly a failed-write log). -/
theorem synthesizeAndSend_trace_forms (app : App) (t : String) (s : Sys) :
    (synthesizeAndSend app t s).trace = s.trace ∨
    (synthesizeAndSend app t s).trace = s.trace ++ [Effect.synthCall t] ∨
    (∃ audio, (synthesizeAndSend app t s).trace =
      s.trace ++ [Effect.synthCall t, Effect.binaryAudio audio]) ∨
    (∃ audio, (synthesizeAndSend app t s).trace =
      s.trace ++ [Effect.synthCall t, Effect.binaryAudio audio, Effect.writeFailed]) := by
  cases h : app.hasTts with
  | false =>
    left
    unfold synthesizeAndSend
    simp [h]
  | true =>
    cases hts : app.ttsResult t with
    | error e =>
      right; left
      unfold synthesizeAndSend
      simp [h, hts, Sys.emit]
    | ok audio =>
      have hrw : synthesizeAndSend app t s =
          writeMsg (Effect.binaryAudio audio) (s.emit (Effect.synthCall t)) := by
        unfold synthesizeAndSend
        simp [h, hts]
      rcases writeMsg_trace_cases (Effect.binaryAudio audio)
          (s.emit (Effect.synthCall t)) with hw | hw
      · right; right; left
        exact ⟨audio, by rw [hrw, hw]; simp [Sys.emit]⟩
      · right; right; right
        exact ⟨audio, by rw [hrw, hw]; simp [Sys.emit]⟩

/-- A TTS failure is silent: synthesizeAndSend adds or removes no status
    frame. -/
theorem synthesizeAndSend_mem_statusMsg (app : App) (t : String) (s : Sys) (a b : String) :
    Effect.statusMsg a b ∈ (synthesizeAndSend app t s).trace ↔
      Effect.statusMsg a b ∈ s.trace := by
  rcases synthesizeAndSend_trace_forms app t s with h | h | ⟨audio, h⟩ | ⟨audio, h⟩ <;>
    simp [h]

/-! ## C6: response-pipeline failure policy -/

/-- C6 counterexample: with a reachable but failing synthesis backend, the
    pipeline calls Synthesize for the completed sentence "Hi." - the call
    fails - yet the whole run contains no ERROR status at all, and the
    session simply finishes back at IDLE: a pipeline failure with no
    client-visible failure notification. -/
theorem tts_failure_emits_no_status :
    ttsFailApp.ttsResult "Hello." = Except.error "TTS backend failure" ∧
    Effect.synthCall "Hello." ∈ (processAudio ttsFailApp (mkSys [])).trace ∧
    (∀ d, Effect.statusMsg "ERROR" d ∉ (processAudio ttsFailApp (mkSys [])).trace) ∧
    (processAudio ttsFailApp (mkSys [])).cs.state = StateIdle := by
  have htr : (processAudio ttsFailApp (mkSys [])).trace =
      [Effect.stateChange StateProcessing,
       Effect.statusMsg "PROCESSING" "Processing your request...",
       Effect.transcribeCall [],
       Effect.transcriptMsg "Hello, how can I help you today?" true,
       Effect.generateCall "Hello, how can I help you today?",
       Effect.stateChange StateSpeaking, Effect.statusMsg "SPEAKING" "Speaking...",
       Effect.synthCall "Hello.", Effect.responseMsg "Hello. Bye",
       Effect.synthCall " Bye",
       Effect.stateChange StateIdle, Effect.statusMsg "IDLE" "Ready"] := by rfl
  refine ⟨rfl, ?_, ?_, rfl⟩
  · rw [htr]
    decide
  · intro d hd
    rw [htr] at hd
    simp at hd

/-- C6 amended: a missing transcription backend, a transcription error, a
    missing generation backend, and a generation-stream-open error each
    produce a client-visible ERROR status, and the pipeline always finishes
    with the session back at IDLE without closing or removing it; synthesis
    failures, by contrast, are silent: synthesizeAndSend never changes the
    ClientState and never adds a status frame. -/
theorem pipeline_failure_policy (app : App) (s : Sys) :
    (app.hasStt = false →
      Effect.statusMsg "ERROR" "STT service unavailable" ∈ (processAudio app s).trace) ∧
    (app.hasStt = true → ∀ e, app.transcribeResult = Except.error e →
      Effect.statusMsg "ERROR" "Failed to transcribe audio" ∈ (processAudio app s).trace) ∧
    (app.hasStt = true → app.hasLlm = false → ∀ t, app.transcribeResult = Except.ok t →
      Effect.statusMsg "ERROR" "LLM service unavailable" ∈ (processAudio app s).trace) ∧
    (app.hasStt = true → app.hasLlm = true → ∀ t e, app.transcribeResult = Except.ok t →
      app.llmStream = Except.error e →
      Effect.statusMsg "ERROR" "Failed to get AI response" ∈ (processAudio app s).trace) ∧
    (processAudio app s).cs.state = StateIdle ∧
    persists s (processAudio app s) ∧
    (∀ t, (synthesizeAndSend app t s).cs = s.cs ∧
      ∀ a b, Effect.statusMsg a b ∈ (synthesizeAndSend app t s).trace ↔
        Effect.statusMsg a b ∈ s.trace) := by
  refine ⟨?_, ?_, ?_, ?_, processAudio_state app s, processAudio_persists app s,
    fun t => ⟨synthesizeAndSend_cs app t s, synthesizeAndSend_mem_statusMsg app t s⟩⟩
  · intro h
    unfold processAudio
    dsimp only
    rw [removeCancelFunc_trace]
    unfold processAudioCore
    rw [h, if_neg (show ¬(false = true) by decide)]
    apply mem_setState
    unfold sendStatus
    exact writeMsg_mem _ _
  · intro h e htr
    unfold processAudio
    dsimp only
    rw [removeCancelFunc_trace]
    unfold processAudioCore
    rw [h, if_pos rfl, htr]
    dsimp only
    apply mem_setState
    unfold sendStatus
    exact writeMsg_mem _ _
  · intro h hllm t htr
    unfold processAudio
    dsimp only
    rw [removeCancelFunc_trace]
    unfold processAudioCore
    rw [h, if_pos rfl, htr]
    dsimp only
    rw [hllm, if_neg (show ¬(false = true) by decide)]
    apply mem_setState
    unfold sendStatus
    exact writeMsg_mem _ _
  · intro h hllm t e htr hstream
    unfold processAudio
    dsimp only
    rw [removeCancelFunc_trace]
    unfold processAudioCore
    rw [h, if_pos rfl, htr]
    dsimp only
    rw [hllm, if_pos rfl, hstream]
    dsimp only
    apply mem_setState
    unfold sendStatus
    exact writeMsg_mem _ _

/-- Witness for C6 at concrete failing environments. -/
theorem pipeline_failure_policy_witness :
    Effect.statusMsg "ERROR" "STT service unavailable" ∈
      (processAudio noSttApp (mkSys [])).trace ∧
    Effect.statusMsg "ERROR" "Failed to transcribe audio" ∈
      (processAudio sttFailApp (mkSys [])).trace := by
  constructor
  · exact (pipeline_failure_policy noSttApp (mkSys [])).1 rfl
  · exact (pipeline_failure_policy sttFailApp (mkSys [])).2.1 rfl "stt down" rfl

/-! ## Status accompaniment machinery -/

theorem accompanied_nil : accompanied [] := by
  intro st h
  exact absurd h (List.not_mem_nil _)

theorem accompanied_of_no_stateChange (seg : List Effect)
    (h : ∀ st, Effect.stateChange st ∉ seg) : accompanied seg :=
  fun st hm => absurd hm (h st)

theorem accompanied_append {a b : List Effect} (ha : accompanied a) (hb : accompanied b) :
    accompanied (a ++ b) := by
  intro st hm
  rcases List.mem_append.1 hm with hm | hm
  · rcases ha st hm with ⟨d, hd⟩ | ⟨hidle, d, hd⟩
    · exact Or.inl ⟨d, List.mem_append.2 (Or.inl hd)⟩
    · exact Or.inr ⟨hidle, d, List.mem_append.2 (Or.inl hd)⟩
  · rcases hb st hm with ⟨d, hd⟩ | ⟨hidle, d, hd⟩
    · exact Or.inl ⟨d, List.mem_append.2 (Or.inr hd)⟩
    · exact Or.inr ⟨hidle, d, List.mem_append.2 (Or.inr hd)⟩

theorem accompanied_step {s t : Sys} (h : accompanied s.trace)
    (he : ∃ seg, t.trace = s.trace ++ seg ∧ accompanied seg) : accompanied t.trace := by
  rcases he with ⟨seg, hseg, hacc⟩
  rw [hseg]
  exact accompanied_append h hacc

theorem seg_comp {s t u : Sys}
    (h1 : ∃ seg, t.trace = s.trace ++ seg ∧ accompanied seg)
    (h2 : ∃ seg, u.trace = t.trace ++ seg ∧ accompanied seg) :
    ∃ seg, u.trace = s.trace ++ seg ∧ accompanied seg := by
  rcases h1 with ⟨a, ha, hacca⟩
  rcases h2 with ⟨b, hb, haccb⟩
  exact ⟨a ++ b, by rw [hb, ha, List.append_assoc], accompanied_append hacca haccb⟩

theorem seg_refl {s t : Sys} (h : t.trace = s.trace) :
    ∃ seg, t.trace = s.trace ++ seg ∧ accompanied seg :=
  ⟨[], by simp [h], accompanied_nil⟩

theorem setVadActive_trace (b : Bool) (u : Sys) :
    ({ u with cs := { u.cs with vadActive := b } } : Sys).trace = u.trace := rfl

theorem setTriggered_trace (u : Sys) :
    ({ u with cs := { u.cs with triggered := true } } : Sys).trace = u.trace := rfl

theorem setTranscript_trace (t : String) (u : Sys) :
    ({ u with cs := { u.cs with transcript := t } } : Sys).trace = u.trace := rfl

theorem clearBuffer_trace (u : Sys) :
    ({ u with cs := { u.cs with audioBuffer := [] } } : Sys).trace = u.trace := rfl

theorem writeMsg_acc (e : Effect) (s : Sys) (h : ∀ st, e ≠ Effect.stateChange st) :
    ∃ seg, (writeMsg e s).trace = s.trace ++ seg ∧ accompanied seg := by
  rcases writeMsg_trace_cases e s with hw | hw
  · refine ⟨[e], hw, accompanied_of_no_stateChange _ ?_⟩
    intro st hm
    rcases List.mem_cons.1 hm with heq | hnil
    · exact h st heq.symm
    · exact absurd hnil (List.not_mem_nil _)
  · refine ⟨[e, Effect.writeFailed], hw, accompanied_of_no_stateChange _ ?_⟩
    intro st hm
    rcases List.mem_cons.1 hm with heq | hm2
    · exact h st heq.symm
    · rcases List.mem_cons.1 hm2 with heq | hnil
      · exact Effect.noConfusion heq
      · exact absurd hnil (List.not_mem_nil _)

theorem sendTranscript_acc (t : String) (b : Bool) (s : Sys) :
    ∃ seg, (sendTranscript t b s).trace = s.trace ++ seg ∧ accompanied seg :=
  writeMsg_acc _ _ (by intro st heq; simp at heq)

theorem sendResponse_acc (t : String) (s : Sys) :
    ∃ seg, (sendResponse t s).trace = s.trace ++ seg ∧ accompanied seg :=
  writeMsg_acc _ _ (by intro st heq; simp at heq)

theorem emit_acc (s : Sys) (e : Effect) (h : ∀ st, e ≠ Effect.stateChange st) :
    ∃ seg, (s.emit e).trace = s.trace ++ seg ∧ accompanied seg := by
  refine ⟨[e], rfl, accompanied_of_no_stateChange _ ?_⟩
  intro st hm
  rcases List.mem_cons.1 hm with heq | hnil
  · exact h st heq.symm
  · exact absurd hnil (List.not_mem_nil _)

/-- The setState-then-sendStatus block: its segment pairs the state change
    with a status carrying that state's name. -/
theorem statusBlock_acc (st : State) (d : String) (u : Sys) :
    ∃ seg, (sendStatus st d (setState st u)).trace = u.trace ++ seg ∧ accompanied seg := by
  unfold sendStatus
  rcases writeMsg_trace_cases (Effect.statusMsg st.str d) (setState st u) with hw | hw
  · refine ⟨[Effect.stateChange st, Effect.statusMsg st.str d], ?_, ?_⟩
    · rw [hw]
      simp [setState, Sys.emit]
    · intro st2 hm
      simp at hm
      subst hm
      exact Or.inl ⟨d, by simp⟩
  · refine ⟨[Effect.stateChange st, Effect.statusMsg st.str d, Effect.writeFailed], ?_, ?_⟩
    · rw [hw]
      simp [setState, Sys.emit]
    · intro st2 hm
      simp at hm
      subst hm
      exact Or.inl ⟨d, by simp⟩

/-- The error-path block sendStatus-ERROR-then-setState-IDLE: its segment
    pairs the transition to IDLE with the ERROR status sent in its stead. -/
theorem errorIdleBlock_acc (d : String) (u : Sys) :
    ∃ seg, (setState StateIdle (sendStatus StateError d u)).trace = u.trace ++ seg ∧
      accompanied seg := by
  unfold sendStatus
  rcases writeMsg_trace_cases (Effect.statusMsg StateError.str d) u with hw | hw
  · refine ⟨[Effect.statusMsg StateError.str d, Effect.stateChange StateIdle], ?_, ?_⟩
    · simp [setState, Sys.emit, hw]
    · intro st2 hm
      simp at hm
      subst hm
      exact Or.inr ⟨rfl, d, by simp [State.str]⟩
  · refine ⟨[Effect.statusMsg StateError.str d, Effect.writeFailed,
      Effect.stateChange StateIdle], ?_, ?_⟩
    · simp [setState, Sys.emit, hw]
    · intro st2 hm
      simp at hm
      subst hm
      exact Or.inr ⟨rfl, d, by simp [State.str]⟩

theorem synthesizeAndSend_acc (app : App) (t : String) (s : Sys) :
    ∃ seg, (synthesizeAndSend app t s).trace = s.trace ++ seg ∧ accompanied seg := by
  rcases synthesizeAndSend_trace_forms app t s with h | h | ⟨audio, h⟩ | ⟨audio, h⟩
  · exact seg_refl h
  · exact ⟨_, h, accompanied_of_no_stateChange _ (by intro st; simp)⟩
  · exact ⟨_, h, accompanied_of_no_stateChange _ (by intro st; simp)⟩
  · exact ⟨_, h, accompanied_of_no_stateChange _ (by intro st; simp)⟩

theorem streamStep_acc (app : App) (r c : String) (s : Sys) :
    ∃ seg, ((streamStep app r c s).2).trace = s.trace ++ seg ∧ accompanied seg := by
  unfold streamStep
  dsimp only
  split
  · split
    · exact seg_comp (synthesizeAndSend_acc app _ s) (sendResponse_acc _ _)
    · exact sendResponse_acc _ _
  · exact sendResponse_acc _ _

theorem streamLoop_acc (app : App) (frags : List String) (cur : String) (s : Sys) :
    ∃ seg, (streamLoop app frags cur s).trace = s.trace ++ seg ∧ accompanied seg := by
  induction frags generalizing cur s with
  | nil =>
    unfold streamLoop
    dsimp only
    split
    · exact seg_comp (synthesizeAndSend_acc app cur s) (statusBlock_acc StateIdle "Ready" _)
    · exact statusBlock_acc StateIdle "Ready" s
  | cons f rest ih =>
    unfold streamLoop
    dsimp only
    exact seg_comp (streamStep_acc app f cur s) (ih _ _)

theorem processAudioCore_acc (app : App) (buf : List Chunk) (s : Sys) :
    ∃ seg, (processAudioCore app buf s).trace = s.trace ++ seg ∧ accompanied seg := by
  unfold processAudioCore
  split
  · split
    · refine seg_comp ?_ (errorIdleBlock_acc _ _)
      exact emit_acc _ _ (by intro st heq; simp at heq)
    · split
      · split
        · refine seg_comp ?_ (errorIdleBlock_acc _ _)
          refine seg_comp ?_ (emit_acc _ _ (by intro st heq; simp at heq))
          refine seg_comp ?_ (sendTranscript_acc _ _ _)
          refine seg_comp ?_ (seg_refl (setTranscript_trace _ _))
          exact emit_acc _ _ (by intro st heq; simp at heq)
        · refine seg_comp ?_ (streamLoop_acc app _ "" _)
          refine seg_comp ?_ (statusBlock_acc StateSpeaking "Speaking..." _)
          refine seg_comp ?_ (emit_acc _ _ (by intro st heq; simp at heq))
          refine seg_comp ?_ (sendTranscript_acc _ _ _)
          refine seg_comp ?_ (seg_refl (setTranscript_trace _ _))
          exact emit_acc _ _ (by intro st heq; simp at heq)
      · refine seg_comp ?_ (errorIdleBlock_acc _ _)
        refine seg_comp ?_ (sendTranscript_acc _ _ _)
        refine seg_comp ?_ (seg_refl (setTranscript_trace _ _))
        exact emit_acc _ _ (by intro st heq; simp at heq)
  · exact errorIdleBlock_acc _ _

theorem processAudio_acc (app : App) (s : Sys) :
    ∃ seg, (processAudio app s).trace = s.trace ++ seg ∧ accompanied seg := by
  unfold processAudio
  dsimp only
  refine seg_comp ?_ (seg_refl (removeCancelFunc_trace _ _))
  refine seg_comp ?_ (processAudioCore_acc app _ _)
  refine seg_comp ?_ (seg_refl (clearBuffer_trace _))
  refine seg_comp ?_ (seg_refl (addCancelFunc_trace _ _))
  exact statusBlock_acc StateProcessing "Processing your request..." s

theorem vadEventStep_acc (app : App) (ev : VadEvent) (s : Sys) :
    ∃ seg, (vadEventStep app ev s).trace = s.trace ++ seg ∧ accompanied seg := by
  unfold vadEventStep
  dsimp only
  split
  · split
    · split
      · split
        · refine seg_comp ?_ (seg_refl (clearBuffer_trace _))
          refine seg_comp ?_ (statusBlock_acc StateTriggered "Listening to you..." _)
          refine seg_comp ?_ (seg_refl (setTriggered_trace _))
          refine seg_comp ?_ (emit_acc _ _ (by intro st heq; simp at heq))
          exact seg_refl (setVadActive_trace _ _)
        · refine seg_comp ?_ (emit_acc _ _ (by intro st heq; simp at heq))
          exact seg_refl (setVadActive_trace _ _)
      · exact seg_refl (setVadActive_trace _ _)
    · exact seg_refl (setVadActive_trace _ _)
  · split
    · split
      · refine seg_comp ?_ (processAudio_acc app _)
        refine seg_comp ?_ (emit_acc _ _ (by intro st heq; simp at heq))
        exact seg_refl (setVadActive_trace _ _)
      · exact seg_refl (setVadActive_trace _ _)
    · exact seg_refl rfl

theorem cancelAllOperations_acc (s : Sys) :
    ∃ seg, (cancelAllOperations s).trace = s.trace ++ seg ∧ accompanied seg := by
  refine ⟨s.cs.cancelFuncs.map Effect.cancelFired, cancelAllOperations_trace s,
    accompanied_of_no_stateChange _ ?_⟩
  intro st hm
  rcases List.mem_map.1 hm with ⟨k, _, heq⟩
  simp at heq

theorem statusAfterIdleChange_acc (d : String) (u v : Sys)
    (hv : v.trace = u.trace ++ [Effect.stateChange StateIdle]) :
    ∃ seg, (sendStatus StateIdle d v).trace = u.trace ++ seg ∧ accompanied seg := by
  unfold sendStatus
  rcases writeMsg_trace_cases (Effect.statusMsg StateIdle.str d) v with hw | hw
  · refine ⟨[Effect.stateChange StateIdle, Effect.statusMsg StateIdle.str d], ?_, ?_⟩
    · rw [hw, hv]
      simp
    · intro st2 hm
      simp at hm
      subst hm
      exact Or.inl ⟨d, by simp⟩
  · refine ⟨[Effect.stateChange StateIdle, Effect.statusMsg StateIdle.str d,
      Effect.writeFailed], ?_, ?_⟩
    · rw [hw, hv]
      simp
    · intro st2 hm
      simp at hm
      subst hm
      exact Or.inl ⟨d, by simp⟩

theorem resetState_acc (s : Sys) :
    ∃ seg, (resetState s).trace = s.trace ++ seg ∧ accompanied seg := by
  unfold resetState
  dsimp only
  exact statusAfterIdleChange_acc "Ready" s _ (by simp [setState, Sys.emit])

theorem handleTextCommand_acc (cmd : Option (List (String × String))) (s : Sys) :
    ∃ seg, (handleTextCommand cmd s).trace = s.trace ++ seg ∧ accompanied seg := by
  unfold handleTextCommand
  split
  · exact seg_refl rfl
  · split
    · exact resetState_acc s
    · exact seg_comp (cancelAllOperations_acc s) (resetState_acc _)
    · exact seg_refl rfl

theorem handleAudioData_acc (app : App) (d : Chunk) (s : Sys) :
    ∃ seg, (handleAudioData app d s).trace = s.trace ++ seg ∧ accompanied seg := by
  unfold handleAudioData
  split <;> split
  · refine seg_comp ?_ (emit_acc _ _ (by intro st heq; simp at heq))
    exact seg_refl rfl
  · exact seg_refl rfl
  · exact emit_acc _ _ (by intro st heq; simp at heq)
  · exact seg_refl rfl

/-! ## C7: every state transition carries a status notification -/

/-- C7 counterexample: in the run where the transcription backend is absent,
    the session records a transition to IDLE but the whole trace contains no
    status frame carrying "IDLE" at all - the accompanying status of that
    transition says "ERROR" instead of the state's name. -/
theorem idle_transition_without_idle_status :
    Effect.stateChange StateIdle ∈ (processAudio noSttApp (mkSys [])).trace ∧
    (∀ d, Effect.statusMsg "IDLE" d ∉ (processAudio noSttApp (mkSys [])).trace) := by
  have htr : (processAudio noSttApp (mkSys [])).trace =
      [Effect.stateChange StateProcessing,
       Effect.statusMsg "PROCESSING" "Processing your request...",
       Effect.statusMsg "ERROR" "STT service unavailable",
       Effect.stateChange StateIdle] := by rfl
  constructor
  · rw [htr]
    decide
  · intro d hd
    rw [htr] at hd
    simp at hd

/-- C7 amended: over any run of the VAD event loop and of the reader loop,
    every recorded state transition is accompanied by a status frame
    carrying that state's name, except the error-path transitions to IDLE,
    which are accompanied by an ERROR status frame in its stead. -/
theorem transitions_accompanied_by_status (app : App) (s : Sys)
    (h : accompanied s.trace) :
    (∀ events, accompanied ((vadLoop app events s).trace)) ∧
    (∀ msgs, accompanied ((clientLoop app msgs s).trace)) := by
  constructor
  · intro events
    induction events generalizing s with
    | nil => exact h
    | cons ev rest ih =>
      exact ih _ (accompanied_step h (vadEventStep_acc app ev s))
  · intro msgs
    induction msgs generalizing s with
    | nil => exact h
    | cons msg rest ih =>
      cases msg with
      | binary d => exact ih _ (accompanied_step h (handleAudioData_acc app d s))
      | text cmd => exact ih _ (accompanied_step h (handleTextCommand_acc cmd s))
      | readError => exact h

/-- Witness for C7 on a concrete full run from a fresh session. -/
theorem transitions_accompanied_by_status_witness :
    accompanied ((vadLoop demoApp [⟨"start", "a"⟩, ⟨"end", "b"⟩] (mkSys [])).trace) :=
  (transitions_accompanied_by_status demoApp (mkSys []) accompanied_nil).1
    [⟨"start", "a"⟩, ⟨"end", "b"⟩]

/-! ## C10: only transport read failures terminate the session -/

/-- C10 counterexample: a failed write (the status write of a stop command)
    is recorded, yet the session keeps running - it processes the next
    binary frame - and is neither closed nor removed: a write error is not
    treated as a disconnection. -/
theorem write_error_not_terminal :
    Effect.writeFailed ∈
      (clientLoop demoApp [InMsg.text stopCmd, InMsg.binary [7]] (mkSys [false])).trace ∧
    Effect.vadForward [7] ∈
      (clientLoop demoApp [InMsg.text stopCmd, InMsg.binary [7]] (mkSys [false])).trace ∧
    (clientLoop demoApp [InMsg.text stopCmd, InMsg.binary [7]] (mkSys [false])).cs.closed
      = false ∧
    (clientLoop demoApp [InMsg.text stopCmd, InMsg.binary [7]]
      (mkSys [false])).conn.isClosed = false ∧
    (clientLoop demoApp [InMsg.text stopCmd, InMsg.binary [7]] (mkSys [false])).removed
      = false := by
  refine ⟨?_, ?_, rfl, rfl, rfl⟩ <;> decide

theorem closeClient_props (s : Sys) (h : s.cs.closed = false) :
    (closeClient s).cs.closed = true ∧ (closeClient s).conn.isClosed = true ∧
    (closeClient s).cs.cancelFuncs = [] := by
  unfold closeClient
  rw [h, if_neg (show ¬(false = true) by decide)]
  exact ⟨rfl, rfl, cancelAllOperations_cancelFuncs s⟩

/-- C10 amended: a read error is terminal - the reader loop processes
    nothing after it, and the connection-handler exit closes the session,
    closes the connection, removes the session from the registry and clears
    the cancellation registry; by contrast neither the reader loop nor the
    VAD event loop ever closes or removes the session on their own, whatever
    the messages, commands, collaborator failures or write failures - only
    the read-error exit does. -/
theorem read_error_terminal_only :
    (∀ (app : App) (pre post : List InMsg) (s : Sys),
      clientLoop app (pre ++ InMsg.readError :: post) s =
        clientLoop app (pre ++ [InMsg.readError]) s) ∧
    (∀ (app : App) (msgs : List InMsg) (s : Sys), s.cs.closed = false →
      (handleClient app msgs s).cs.closed = true ∧
      (handleClient app msgs s).conn.isClosed = true ∧
      (handleClient app msgs s).removed = true ∧
      (handleClient app msgs s).cs.cancelFuncs = []) ∧
    (∀ (app : App) (msgs : List InMsg) (s : Sys), persists s (clientLoop app msgs s)) ∧
    (∀ (app : App) (events : List VadEvent) (s : Sys), persists s (vadLoop app events s)) := by
  refine ⟨?_, ?_, clientLoop_persists, vadLoop_persists⟩
  · intro app pre post s
    induction pre generalizing s with
    | nil => rfl
    | cons m pre ih =>
      cases m with
      | binary d => exact ih (handleAudioData app d s)
      | text cmd => exact ih (handleTextCommand cmd s)
      | readError => rfl
  · intro app msgs s h
    have hX : (clientLoop app msgs (sendStatus StateIdle "Ready" s)).cs.closed = false := by
      have p1 := sendStatus_persists StateIdle "Ready" s
      have p2 := clientLoop_persists app msgs (sendStatus StateIdle "Ready" s)
      rw [p2.1, p1.1, h]
    unfold handleClient removeClient
    have hc := closeClient_props _ hX
    exact ⟨hc.1, hc.2.1, rfl, hc.2.2⟩

/-- Witness for C10 at a concrete message sequence and fresh session. -/
theorem read_error_terminal_only_witness :
    clientLoop demoApp ([InMsg.binary [1]] ++ InMsg.readError :: [InMsg.binary [2]])
        (mkSys []) =
      clientLoop demoApp ([InMsg.binary [1]] ++ [InMsg.readError]) (mkSys []) ∧
    (handleClient demoApp [InMsg.readError] (mkSys [])).cs.closed = true := by
  constructor
  · exact read_error_terminal_only.1 demoApp [InMsg.binary [1]] [InMsg.binary [2]] (mkSys [])
  · exact (read_error_terminal_only.2.1 demoApp [InMsg.readError] (mkSys []) rfl).1
